import Mathlib

/-!
# Verification of the pv-ratelimit rate-limiting algorithms

Shallow embedding of the six rate-limiting algorithms of the pv-ratelimit
repository, in both their in-memory and Redis (Lua script) variants, together
with theorems settling the specification claims about them.

Timestamps and token quantities are modelled as rationals (the TypeScript and
Lua sources use IEEE doubles; every computation in scope is exact rational
arithmetic: additions, subtractions, `min`/`max`, and floors of quotients).
Each operation is modelled as an explicit state-passing function
`state → (state, result)`; a read of an absent key is an `Option` state;
fallible operations return `Except String`.
-/

/-- Floor of a rational, returned as a rational (JS `Math.floor`, Lua
`math.floor`). -/
def qfloor (q : ℚ) : ℚ := (⌊q⌋ : ℤ)

namespace MemoryTokenBucket

/-- Constructor-validated configuration of `MemoryTokenBucket`
(capacity, refillAmount, refillInterval in seconds). -/
structure Config where
  capacity : ℚ
  refillAmount : ℚ
  refillInterval : ℚ

/-- `BucketState` of `src/memory/MemoryLeakyBucket.ts` (second class in file):
current tokens and the timestamp of the last refill, in seconds. -/
structure BucketState where
  tokens : ℚ
  lastRefill : ℚ
deriving DecidableEq, Repr

/-- Result shape `TokenConsumeResult`. -/
structure ConsumeResult where
  success : Bool
  remainingTokens : ℚ
  nextRefillAt : ℚ
deriving DecidableEq, Repr

/-- Result shape `TokenCountResult`. -/
structure CountResult where
  remainingTokens : ℚ
  nextRefillAt : ℚ
deriving DecidableEq, Repr

/-- `MemoryTokenBucket.getOrCreateBucket`: an absent key is created holding
`capacity` tokens with `lastRefill = now`. -/
def getOrCreateBucket (cfg : Config) (st : Option BucketState) (now : ℚ) :
    BucketState :=
  st.getD { tokens := cfg.capacity, lastRefill := now }

/-- `MemoryTokenBucket.refillBucket`: if at least one full refill cycle has
elapsed, add `cycles * refillAmount` tokens (clamped to capacity) and set
`lastRefill` to `now`. -/
def refillBucket (cfg : Config) (b : BucketState) (now : ℚ) : BucketState :=
  let timeElapsed := now - b.lastRefill
  let refillCycles := qfloor (timeElapsed / cfg.refillInterval)
  if refillCycles > 0 then
    { tokens := min cfg.capacity (b.tokens + refillCycles * cfg.refillAmount),
      lastRefill := now }
  else
    b

/-- `MemoryTokenBucket.consume`: rejects a negative request with an error;
otherwise refills, then subtracts when enough tokens are available (resetting
`lastRefill` to `now` on success). The returned state is the stored map entry
after the call (the refill is persisted even when consumption fails). -/
def consume (cfg : Config) (st : Option BucketState) (now tokens : ℚ) :
    Except String (BucketState × ConsumeResult) :=
  if tokens < 0 then
    .error "Tokens to consume must be greater than or equal to 0"
  else
    let b := refillBucket cfg (getOrCreateBucket cfg st now) now
    if b.tokens < tokens then
      .ok (b, { success := false, remainingTokens := b.tokens,
                nextRefillAt := b.lastRefill + cfg.refillInterval })
    else
      let b2 : BucketState := { tokens := b.tokens - tokens, lastRefill := now }
      .ok (b2, { success := true, remainingTokens := b2.tokens,
                 nextRefillAt := b2.lastRefill + cfg.refillInterval })

/-- `MemoryTokenBucket.getRemainingTokens`: creates the bucket when absent,
applies the refill (both persisted), and reports the token count. -/
def getRemainingTokens (cfg : Config) (st : Option BucketState) (now : ℚ) :
    BucketState × CountResult :=
  let b := refillBucket cfg (getOrCreateBucket cfg st now) now
  (b, { remainingTokens := b.tokens,
        nextRefillAt := b.lastRefill + cfg.refillInterval })

/-- `MemoryTokenBucket.addTokens`: errors on `amount ≤ 0`; otherwise refills
then adds, clamped to capacity. -/
def addTokens (cfg : Config) (st : Option BucketState) (now amount : ℚ) :
    Except String BucketState :=
  if amount ≤ 0 then
    .error "Amount to add must be greater than 0"
  else
    let b := refillBucket cfg (getOrCreateBucket cfg st now) now
    .ok { tokens := min cfg.capacity (b.tokens + amount),
          lastRefill := b.lastRefill }

/-- `MemoryTokenBucket.removeTokens`: errors on `amount ≤ 0`; otherwise refills
then removes, clamped to zero. -/
def removeTokens (cfg : Config) (st : Option BucketState) (now amount : ℚ) :
    Except String BucketState :=
  if amount ≤ 0 then
    .error "Amount to remove must be greater than 0"
  else
    let b := refillBucket cfg (getOrCreateBucket cfg st now) now
    .ok { tokens := max 0 (b.tokens - amount),
          lastRefill := b.lastRefill }

end MemoryTokenBucket

namespace RedisTokenBucket

/-- State stored in the Redis hash for a token-bucket key: fields `tokens`
and `last_updated`. `none` models an absent key. -/
structure TBState where
  tokens : ℚ
  lastUpdated : ℚ
deriving DecidableEq, Repr

/-- The refill computation shared verbatim by the `consumeToken` and
`getRemainingTokens` Lua scripts of `src/ioredis/IORedisTokenBucket.ts`:
reading an absent key yields a full bucket anchored at `current_time`; when
`elapsed_time >= refill_interval`, whole cycles are credited and
`last_updated` advances by exactly `cycles * refill_interval`.
Returns (current_tokens, new_last_updated, refill_applied). -/
def refillCalc (capacity refillAmount refillInterval currentTime : ℚ)
    (st : Option TBState) : ℚ × ℚ × Bool :=
  let lastTokens := match st with
    | some b => b.tokens
    | none => capacity
  let lastUpdated := match st with
    | some b => b.lastUpdated
    | none => currentTime
  let elapsed := currentTime - lastUpdated
  if elapsed ≥ refillInterval then
    let refillsToAdd := qfloor (elapsed / refillInterval)
    let tokensToAdd := refillsToAdd * refillAmount
    (min capacity (lastTokens + tokensToAdd),
     lastUpdated + refillsToAdd * refillInterval, true)
  else
    (lastTokens, lastUpdated, false)

/-- Lua script `consumeToken`: refill, then consume and `HSET` on success,
or report the current tokens without writing on failure.
Result is (success_flag as Bool, remaining_tokens, next_refill_at). -/
def consumeToken (capacity refillAmount refillInterval currentTime
    requestedTokens : ℚ) (st : Option TBState) :
    Option TBState × (Bool × ℚ × ℚ) :=
  let r := refillCalc capacity refillAmount refillInterval currentTime st
  let currentTokens := r.1
  let newLastUpdated := r.2.1
  let nextRefillAt := newLastUpdated + refillInterval
  if currentTokens ≥ requestedTokens then
    let remaining := currentTokens - requestedTokens
    (some { tokens := remaining, lastUpdated := newLastUpdated },
     (true, remaining, nextRefillAt))
  else
    (st, (false, currentTokens, nextRefillAt))

/-- Lua script `getRemainingTokens`: same refill computation; when a refill
applied it is written back with `HSET` (a write on the read path); the token
count is reported without consuming. Result is (remaining_tokens,
next_refill_at). -/
def getRemainingTokensScript (capacity refillAmount refillInterval
    currentTime : ℚ) (st : Option TBState) : Option TBState × (ℚ × ℚ) :=
  let r := refillCalc capacity refillAmount refillInterval currentTime st
  let currentTokens := r.1
  let newLastUpdated := r.2.1
  let nextRefillAt := newLastUpdated + refillInterval
  if r.2.2 then
    (some { tokens := currentTokens, lastUpdated := newLastUpdated },
     (currentTokens, nextRefillAt))
  else
    (st, (currentTokens, nextRefillAt))

/-- Lua script run by `IORedisTokenBucketRateLimiter.addTokens` for a positive
amount: reads only the `tokens` field (no refill computation exists in this
script), initializes an absent key to a full bucket, then clamps
`tokens + amount` to capacity. `last_updated` is never advanced. -/
def addTokensScript (amount capacity currentTime : ℚ)
    (st : Option TBState) : Option TBState :=
  let currentTokens := match st with
    | some b => b.tokens
    | none => capacity
  let lastUpdated := match st with
    | some b => b.lastUpdated
    | none => currentTime
  some { tokens := min capacity (currentTokens + amount),
         lastUpdated := lastUpdated }

/-- Lua script run by `IORedisTokenBucketRateLimiter.removeTokens` for a
positive amount: clamps `tokens - amount` to zero, no refill computation. -/
def removeTokensScript (amount capacity currentTime : ℚ)
    (st : Option TBState) : Option TBState :=
  let currentTokens := match st with
    | some b => b.tokens
    | none => capacity
  let lastUpdated := match st with
    | some b => b.lastUpdated
    | none => currentTime
  some { tokens := max 0 (currentTokens - amount),
         lastUpdated := lastUpdated }

/-- `IORedisTokenBucketRateLimiter.addTokens`: returns without running any
script when `amount ≤ 0` (a silent no-op); otherwise runs the add script. -/
def addTokens (amount capacity currentTime : ℚ) (st : Option TBState) :
    Option TBState :=
  if amount ≤ 0 then st
  else addTokensScript amount capacity currentTime st

/-- `IORedisTokenBucketRateLimiter.removeTokens`: returns without running any
script when `amount ≤ 0`; otherwise runs the remove script. -/
def removeTokens (amount capacity currentTime : ℚ) (st : Option TBState) :
    Option TBState :=
  if amount ≤ 0 then st
  else removeTokensScript amount capacity currentTime st

end RedisTokenBucket

/-- Lua `%` on nonnegative reals: `a % b = a - floor(a/b)*b`. -/
def qmod (a b : ℚ) : ℚ := a - b * qfloor (a / b)

/-- Result shape shared by the counting limiters: success flag and remaining
count. -/
structure CountingResult where
  success : Bool
  remaining : ℚ
deriving DecidableEq, Repr

namespace MemoryLeakyBucket

/-- `LeakyBucketState` result of `getState`: queue size and remaining
capacity. -/
structure StateResult where
  size : ℚ
  remaining : ℚ
deriving DecidableEq, Repr

/-- `MemoryLeakyBucket.cleanupExpired` (src/memory/MemoryLeakyBucket.ts):
keep only items with `expiresAt > now`. The queue is a list of `expiresAt`
timestamps in seconds. -/
def cleanupExpired (items : List ℚ) (now : ℚ) : List ℚ :=
  items.filter (fun e => now < e)

/-- `MemoryLeakyBucket.consume` (src/memory/MemoryLeakyBucket.ts): clean
expired items (persisted in place), reject with remaining 0 when the cleaned
queue is at capacity, otherwise append an item expiring at `now + interval`
and report `capacity - size`. -/
def consume (capacity interval : ℚ) (items : List ℚ) (now : ℚ) :
    List ℚ × CountingResult :=
  let cleaned := cleanupExpired items now
  if (cleaned.length : ℚ) ≥ capacity then
    (cleaned, { success := false, remaining := 0 })
  else
    let after := cleaned ++ [now + interval]
    (after, { success := true, remaining := capacity - after.length })

/-- `MemoryLeakyBucket.getState` (src/memory/MemoryLeakyBucket.ts): clean
expired items (persisted), report size and `max 0 (capacity - size)`. -/
def getState (capacity : ℚ) (items : List ℚ) (now : ℚ) :
    List ℚ × StateResult :=
  let cleaned := cleanupExpired items now
  (cleaned, { size := cleaned.length,
              remaining := max 0 (capacity - cleaned.length) })

end MemoryLeakyBucket

namespace MemoryLeakyBucketV2

/-- The alternative in-memory `MemoryLeakyBucket` (the class whose
`BucketData` stores request-id strings and a `lastAccessed` stamp): its
`consume` never drops entries based on time — entries carry no expiry at
all; storage is only trimmed by a periodic sweep keyed on `lastAccessed`.
State is the list of queued request ids. -/
def consume (capacity : ℚ) (requests : List String) (requestId : String) :
    List String × CountingResult :=
  if (requests.length : ℚ) ≥ capacity then
    (requests, { success := false, remaining := 0 })
  else
    let after := requests ++ [requestId]
    (after, { success := true, remaining := capacity - after.length })

/-- `getState` of the alternative in-memory leaky bucket: size and
(unclamped) `capacity - size`; an absent key reads as size 0. -/
def getState (capacity : ℚ) (st : Option (List String)) :
    MemoryLeakyBucket.StateResult :=
  match st with
  | none => { size := 0, remaining := capacity }
  | some requests =>
      { size := requests.length,
        remaining := capacity - requests.length }

end MemoryLeakyBucketV2

namespace RedisLeakyBucket

/-- Lua script `consumeLeakyBucket` (IORedisLeakyBucketRateLimiter): `LLEN`,
then `RPUSH` + `EXPIRE interval` when below capacity. The script never
removes entries; the only expiry is the key-level TTL (the whole list
expires `interval` after the last accepted push), which lives outside the
script in the Redis keyspace. An expired or absent key reads as `[]`. -/
def consumeScript (capacity : ℚ) (requestId : String) (items : List String) :
    List String × (Bool × ℚ) :=
  if (items.length : ℚ) < capacity then
    (items ++ [requestId], (true, capacity - (items.length + 1)))
  else
    (items, (false, 0))

/-- Lua script `getStateLeakyBucket`: `LLEN` only (no write, no TTL refresh);
returns (len, max 0 (capacity - len)). -/
def getStateScript (capacity : ℚ) (items : List String) : ℚ × ℚ :=
  ((items.length : ℚ), max 0 (capacity - items.length))

end RedisLeakyBucket

namespace MemoryFixedWindow

/-- `WindowData` of `MemoryFixedWindow`: request count and the start of the
window it belongs to. -/
structure WindowData where
  count : ℕ
  windowStart : ℚ
deriving DecidableEq, Repr

/-- `MemoryFixedWindow.getWindowStart`: `floor(now/interval)*interval`. -/
def getWindowStart (interval timestamp : ℚ) : ℚ :=
  qfloor (timestamp / interval) * interval

/-- `MemoryFixedWindow.consume`: data from a different window is replaced by
a fresh zero count; reject with remaining 0 at the limit (nothing stored),
otherwise store the incremented count and report `limit - count`. -/
def consume (limit interval : ℚ) (st : Option WindowData) (now : ℚ) :
    Option WindowData × CountingResult :=
  let ws := getWindowStart interval now
  let wd := match st with
    | some w => if w.windowStart = ws then w else { count := 0, windowStart := ws }
    | none => { count := 0, windowStart := ws }
  if (wd.count : ℚ) ≥ limit then
    (st, { success := false, remaining := 0 })
  else
    (some { count := wd.count + 1, windowStart := ws },
     { success := true, remaining := limit - (wd.count + 1) })

/-- `MemoryFixedWindow.getRemaining`: no write; an absent key or a stale
window reads as the full limit. -/
def getRemaining (limit interval : ℚ) (st : Option WindowData) (now : ℚ) :
    ℚ :=
  let ws := getWindowStart interval now
  match st with
  | none => limit
  | some w => if w.windowStart = ws then max 0 (limit - w.count) else limit

end MemoryFixedWindow

namespace RedisFixedWindow

/-- The Redis fixed-window limiter keys its counter by
`floor(now/interval)`, so a new window reads a fresh (absent = 0)
counter. -/
def windowId (interval now : ℚ) : ℚ := qfloor (now / interval)

/-- Lua script `consumeFixedWindow`: `INCR` (so the stored count always
increments, even past the limit), `EXPIRE` on first increment, remaining
clamped at 0, success iff the post-increment count is at most the limit.
`count` is the stored counter for the current window key (0 when absent). -/
def consumeScript (limit : ℚ) (count : ℕ) : ℕ × (Bool × ℚ) :=
  let count2 := count + 1
  let remaining := max 0 (limit - count2)
  if (count2 : ℚ) > limit then
    (count2, (false, remaining))
  else
    (count2, (true, remaining))

/-- Lua script `getFixedWindow`: read-only; absent key counts as 0;
remaining clamped at 0. -/
def getScript (limit : ℚ) (count : ℕ) : ℚ :=
  max 0 (limit - count)

end RedisFixedWindow

namespace MemorySlidingWindow

/-- `WindowData` of `MemorySlidingWindow`: current and previous window
counters and the start of the current window. -/
structure WindowData where
  current : ℕ
  previous : ℕ
  currentWindowStart : ℚ
deriving DecidableEq, Repr

/-- `MemorySlidingWindow.calculateWeightedRate`: current count plus the
floor of the previous count weighted by the still-overlapping share of the
previous window. -/
def calculateWeightedRate (interval : ℚ) (w : WindowData) (now : ℚ) : ℚ :=
  let currentWindowEnd := w.currentWindowStart + interval
  let overlap := currentWindowEnd - now
  let weight := max 0 (overlap / interval)
  (w.current : ℚ) + qfloor ((w.previous : ℚ) * weight)

/-- The window-transition step shared by `consume` and `getRemaining`: when
`now` falls in a new bucket, previous ← current, current ← 0, and
`currentWindowStart` moves to the new bucket. -/
def transition (interval : ℚ) (w : WindowData) (now : ℚ) : WindowData :=
  let ws := qfloor (now / interval) * interval
  if w.currentWindowStart ≠ ws then
    { current := 0, previous := w.current, currentWindowStart := ws }
  else
    w

/-- `MemorySlidingWindow.consume`: get-or-create (created data is stored),
transition, then admit iff the weighted rate is below the limit,
incrementing the current counter on success. -/
def consume (limit interval : ℚ) (st : Option WindowData) (now : ℚ) :
    Option WindowData × CountingResult :=
  let ws := qfloor (now / interval) * interval
  let w0 := st.getD { current := 0, previous := 0, currentWindowStart := ws }
  let w := transition interval w0 now
  let weightedRate := calculateWeightedRate interval w now
  if weightedRate ≥ limit then
    (some w, { success := false, remaining := max 0 (limit - weightedRate) })
  else
    (some { w with current := w.current + 1 },
     { success := true, remaining := max 0 (limit - (weightedRate + 1)) })

/-- `MemorySlidingWindow.getRemaining`: an absent key reads the full limit
(and creates nothing); otherwise the transition it computes is persisted
(the documented read-path write) and the weighted remainder reported. -/
def getRemaining (limit interval : ℚ) (st : Option WindowData) (now : ℚ) :
    Option WindowData × ℚ :=
  match st with
  | none => (none, limit)
  | some w0 =>
      let w := transition interval w0 now
      (some w, max 0 (limit - calculateWeightedRate interval w now))

end MemorySlidingWindow

namespace RedisSlidingWindow

/-- Shared body of the two sliding-window Lua scripts
(IORedisSlidingWindowRateLimiter): counters are read from per-window keys
(absent = 0); weight is the share of the current window not yet elapsed;
result is (weighted total, remaining before clamping). -/
def scriptCore (limit interval currentTime : ℚ) (previousCount currentCount : ℕ) :
    ℚ × ℚ :=
  let timeInWindow := qmod currentTime interval
  let weight := (interval - timeInWindow) / interval
  let weightedCount := qfloor ((previousCount : ℚ) * weight)
  let totalCount := weightedCount + currentCount
  (totalCount, limit - totalCount)

/-- Lua script `consumeSlidingWindow`: reject with clamped remaining when the
weighted total reaches the limit (no write); otherwise `INCR` the current
window's counter and report `remaining - 1` clamped at 0. -/
def consumeScript (limit interval currentTime : ℚ)
    (previousCount currentCount : ℕ) : (ℕ × ℕ) × (Bool × ℚ) :=
  let tr := scriptCore limit interval currentTime previousCount currentCount
  if tr.1 ≥ limit then
    ((previousCount, currentCount), (false, max 0 tr.2))
  else
    ((previousCount, currentCount + 1), (true, max 0 (tr.2 - 1)))

/-- Lua script `getSlidingWindow`: the shared body ends with
`return {0, remaining}` on the saturated branch, so on that branch this
read-only script answers with a two-element Lua table (`Sum.inr`) instead of
the bare number (`Sum.inl`) its TypeScript signature declares. -/
def getScript (limit interval currentTime : ℚ)
    (previousCount currentCount : ℕ) : Sum ℚ (ℚ × ℚ) :=
  let tr := scriptCore limit interval currentTime previousCount currentCount
  if tr.1 ≥ limit then
    Sum.inr (0, max 0 tr.2)
  else
    Sum.inl (max 0 tr.2)

/-- `IORedisSlidingWindowRateLimiter.getRemaining` applies `Math.floor` to
the script reply. When the script answers with a table, `Math.floor` of an
array is not a number (`NaN`); modelled as `none`. -/
def getRemaining (limit interval currentTime : ℚ)
    (previousCount currentCount : ℕ) : Option ℚ :=
  match getScript limit interval currentTime previousCount currentCount with
  | Sum.inl n => some (qfloor n)
  | Sum.inr _ => none

end RedisSlidingWindow

namespace MemorySlidingLog

/-- `MemorySlidingLog.consume`: prune timestamps `≤ now - interval`; reject
(persisting the pruned log) at the limit, otherwise append `now`. An absent
key starts from the empty log. State is the stored timestamp list. -/
def consume (limit interval : ℚ) (st : Option (List ℚ)) (now : ℚ) :
    List ℚ × CountingResult :=
  let timestamps := st.getD []
  let valid := timestamps.filter (fun t => now - interval < t)
  if (valid.length : ℚ) ≥ limit then
    (valid, { success := false, remaining := 0 })
  else
    (valid ++ [now], { success := true,
                       remaining := limit - (valid.length + 1) })

/-- `MemorySlidingLog.getRemaining`: counts in-window timestamps without
writing anything back; an absent key reads the full limit. -/
def getRemaining (limit interval : ℚ) (st : Option (List ℚ)) (now : ℚ) :
    ℚ :=
  match st with
  | none => limit
  | some timestamps =>
      max 0 (limit - (timestamps.filter (fun t => now - interval < t)).length)

end MemorySlidingLog

namespace RedisSlidingLog

/-- Redis `ZADD score member` on a sorted set modelled as an association
list: an existing member gets its score updated, a new member is added. -/
def zadd (entries : List (ℚ × String)) (score : ℚ) (member : String) :
    List (ℚ × String) :=
  if entries.any (fun e => e.2 = member) then
    entries.map (fun e => if e.2 = member then (score, member) else e)
  else
    entries ++ [(score, member)]

/-- Lua script `consumeSlidingLog`: `ZREMRANGEBYSCORE -inf (now-interval)`
prunes entries with score `≤ now - interval` (a write even on the reject
path), then admits iff the pruned cardinality is below the limit, adding
(now, requestId). -/
def consumeScript (limit interval currentTime : ℚ) (requestId : String)
    (entries : List (ℚ × String)) : List (ℚ × String) × (Bool × ℚ) :=
  let minScore := currentTime - interval
  let pruned := entries.filter (fun e => minScore < e.1)
  if (pruned.length : ℚ) < limit then
    (zadd pruned currentTime requestId, (true, limit - (pruned.length + 1)))
  else
    (pruned, (false, 0))

/-- Lua script `getSlidingLog`: prunes (a write on the read path) and reports
the clamped remainder. -/
def getScript (limit interval currentTime : ℚ)
    (entries : List (ℚ × String)) : List (ℚ × String) × ℚ :=
  let minScore := currentTime - interval
  let pruned := entries.filter (fun e => minScore < e.1)
  (pruned, max 0 (limit - pruned.length))

end RedisSlidingLog

namespace MemoryThrottling

/-- `ThrottlingResult`: immediate admission flag, wait in ms, and the
timestamp from which the next request is allowed. -/
structure Result where
  success : Bool
  waitTime : ℚ
  nextAllowedAt : ℚ
deriving DecidableEq, Repr

/-- `MemoryThrottling.throttle`: an unseen key reads `lastRequestTime = 0`;
the request is admitted (and the timestamp persisted) iff
`max 0 (minInterval - elapsed) = 0`; a throttled request writes nothing. -/
def throttle (minInterval : ℚ) (st : Option ℚ) (now : ℚ) :
    Option ℚ × Result :=
  let lastRequestTime := st.getD 0
  let timeSinceLast := now - lastRequestTime
  let waitTime := max 0 (minInterval - timeSinceLast)
  if waitTime = 0 then
    (some now, { success := true, waitTime := 0, nextAllowedAt := now })
  else
    (st, { success := false, waitTime := waitTime,
           nextAllowedAt := lastRequestTime + minInterval })

/-- `MemoryThrottling.getStatus`: identical computation, never writes. -/
def getStatus (minInterval : ℚ) (st : Option ℚ) (now : ℚ) :
    Option ℚ × Result :=
  let lastRequestTime := st.getD 0
  let timeSinceLast := now - lastRequestTime
  let waitTime := max 0 (minInterval - timeSinceLast)
  if waitTime = 0 then
    (st, { success := true, waitTime := 0, nextAllowedAt := now })
  else
    (st, { success := false, waitTime := waitTime,
           nextAllowedAt := lastRequestTime + minInterval })

end MemoryThrottling

namespace RedisThrottling

/-- Lua script `throttleRequest` (IORedisThrottlingRateLimiter): an absent
key reads 0; below the minimum interval the call fails with
`(wait, last + minInterval)` and writes nothing; otherwise it `SET`s the
key to `current_time` and succeeds with wait 0. -/
def throttleScript (minInterval currentTime : ℚ) (st : Option ℚ) :
    Option ℚ × MemoryThrottling.Result :=
  let lastRequestTime := st.getD 0
  let timeSinceLast := currentTime - lastRequestTime
  if timeSinceLast < minInterval then
    (st, { success := false, waitTime := minInterval - timeSinceLast,
           nextAllowedAt := lastRequestTime + minInterval })
  else
    (some currentTime,
     { success := true, waitTime := 0, nextAllowedAt := currentTime })

/-- Lua script `getThrottleStatus`: identical computation with the `SET`
removed; never writes. -/
def getStatusScript (minInterval currentTime : ℚ) (st : Option ℚ) :
    Option ℚ × MemoryThrottling.Result :=
  let lastRequestTime := st.getD 0
  let timeSinceLast := currentTime - lastRequestTime
  if timeSinceLast < minInterval then
    (st, { success := false, waitTime := minInterval - timeSinceLast,
           nextAllowedAt := lastRequestTime + minInterval })
  else
    (st, { success := true, waitTime := 0, nextAllowedAt := currentTime })

end RedisThrottling

/-- The request count a fixed-window consume effectively starts from: the
stored count when the stored window is the current one, otherwise 0. -/
def MemoryFixedWindow.effectiveCount (st : Option MemoryFixedWindow.WindowData)
    (ws : ℚ) : ℕ :=
  match st with
  | some w => if w.windowStart = ws then w.count else 0
  | none => 0

/-- Runs a sequence of `MemoryFixedWindow.consume` calls at the given
timestamps, collecting the results. -/
def fwRun (limit interval : ℚ) :
    Option MemoryFixedWindow.WindowData → List ℚ →
    Option MemoryFixedWindow.WindowData × List CountingResult
  | st, [] => (st, [])
  | st, t :: ts =>
      let r := MemoryFixedWindow.consume limit interval st t
      let rest := fwRun limit interval r.1 ts
      (rest.1, r.2 :: rest.2)

/-- Spec-side weighted rate of the sliding window, written from the
specification's words: `weight = max 0 ((currentWindowStart + interval −
now) / interval)`; `weighted = current + floor(previous * weight)`. -/
def slidingWeightedSpec (interval : ℚ) (w : MemorySlidingWindow.WindowData)
    (now : ℚ) : ℚ :=
  (w.current : ℚ) +
    qfloor ((w.previous : ℚ) *
      max 0 ((w.currentWindowStart + interval - now) / interval))

/-- Runs a sequence of `MemorySlidingWindow.consume` calls at the given
timestamps, collecting the results. -/
def swRun (limit interval : ℚ) :
    Option MemorySlidingWindow.WindowData → List ℚ →
    Option MemorySlidingWindow.WindowData × List CountingResult
  | st, [] => (st, [])
  | st, t :: ts =>
      let r := MemorySlidingWindow.consume limit interval st t
      let rest := swRun limit interval r.1 ts
      (rest.1, r.2 :: rest.2)

/-- Spec-side throttling transition, written from the specification's words:
`elapsed = now − lastAllowedAt` (0 if unseen); if `elapsed ≥ minInterval`
succeed, set `lastAllowedAt := now`, `waitTime = 0`, `nextAllowedAt = now`;
else fail with `waitTime = minInterval − elapsed`,
`nextAllowedAt = lastAllowedAt + minInterval` and no write. -/
def throttleSpec (minInterval : ℚ) (st : Option ℚ) (now : ℚ) :
    Option ℚ × MemoryThrottling.Result :=
  let lastAllowedAt := st.getD 0
  let elapsed := now - lastAllowedAt
  if elapsed ≥ minInterval then
    (some now, { success := true, waitTime := 0, nextAllowedAt := now })
  else
    (st, { success := false, waitTime := minInterval - elapsed,
           nextAllowedAt := lastAllowedAt + minInterval })

/-- C9: Throttle computes elapsed = now − lastAllowedAt; at or above the
minimum interval it succeeds, persists lastAllowedAt := now and returns
waitTime 0 and nextAllowedAt = now; below it it fails with
waitTime = minInterval − elapsed and nextAllowedAt = lastAllowedAt +
minInterval, writing nothing. Both the in-memory implementation and the
Redis Lua scripts realize this transition, and with minInterval = 1000 ms:
a first call on an unseen key at t = 5000 succeeds, a call 500 ms after the
success fails with waitTime 500 and nextAllowedAt 6000 = 5000 + 1000, and a
call 1000 ms after the success succeeds. -/
theorem C9_throttling_spec :
    (∀ (minInterval now : ℚ) (st : Option ℚ),
        MemoryThrottling.throttle minInterval st now =
          throttleSpec minInterval st now) ∧
    (∀ (minInterval now : ℚ) (st : Option ℚ),
        RedisThrottling.throttleScript minInterval now st =
          throttleSpec minInterval st now) ∧
    MemoryThrottling.throttle 1000 none 5000 =
      (some 5000, { success := true, waitTime := 0, nextAllowedAt := 5000 }) ∧
    MemoryThrottling.throttle 1000 (some 5000) 5500 =
      (some 5000,
       { success := false, waitTime := 500, nextAllowedAt := 6000 }) ∧
    MemoryThrottling.throttle 1000 (some 5000) 6000 =
      (some 6000, { success := true, waitTime := 0, nextAllowedAt := 6000 }) ∧
    RedisThrottling.throttleScript 1000 5000 none =
      (some 5000, { success := true, waitTime := 0, nextAllowedAt := 5000 }) ∧
    RedisThrottling.throttleScript 1000 5500 (some 5000) =
      (some 5000,
       { success := false, waitTime := 500, nextAllowedAt := 6000 }) ∧
    RedisThrottling.throttleScript 1000 6000 (some 5000) =
      (some 6000, { success := true, waitTime := 0, nextAllowedAt := 6000 }) := by
  refine ⟨?_, ?_, ?_, ?_, ?_, ?_, ?_, ?_⟩
  · intro minInterval now st
    simp only [MemoryThrottling.throttle, throttleSpec]
    rcases le_or_lt minInterval (now - st.getD 0) with h | h
    · rw [if_pos (max_eq_left (sub_nonpos.mpr h)), if_pos h]
    · have hx : (0:ℚ) < minInterval - (now - st.getD 0) := sub_pos.mpr h
      rw [max_eq_right (le_of_lt hx), if_neg (ne_of_gt hx),
        if_neg (not_le.mpr h)]
  · intro minInterval now st
    simp only [RedisThrottling.throttleScript, throttleSpec]
    rcases le_or_lt minInterval (now - st.getD 0) with h | h
    · rw [if_neg (by exact not_lt.mpr h), if_pos (by exact h)]
    · rw [if_pos (by exact h), if_neg (by exact not_le.mpr h)]
  · simp [MemoryThrottling.throttle]; norm_num
  · simp [MemoryThrottling.throttle]; norm_num
  · simp [MemoryThrottling.throttle]; norm_num
  · simp [RedisThrottling.throttleScript]; norm_num
  · simp [RedisThrottling.throttleScript]; norm_num
  · simp [RedisThrottling.throttleScript]; norm_num

/-- C10: Every unseen key starts with the full budget: a fresh token bucket
holds `capacity` tokens (so a first consume of up to `capacity` tokens
succeeds in both backends), and every read operation on an unseen key
reports the full limit or capacity — fixed-window, sliding-window and
sliding-log `getRemaining` return `limit`; leaky-bucket `getState` returns
size 0 and remaining = capacity. -/
theorem C10_unseen_key_full_budget (limit cap amt interval now req : ℚ)
    (hl : 0 ≤ limit) (hc : 0 ≤ cap) (hi : 0 < interval) (hr0 : 0 ≤ req)
    (hr : req ≤ cap) :
    MemoryTokenBucket.getOrCreateBucket ⟨cap, amt, interval⟩ none now =
      { tokens := cap, lastRefill := now } ∧
    ((MemoryTokenBucket.consume ⟨cap, amt, interval⟩ none now req).map
        (fun r => r.2.success)) = .ok true ∧
    (RedisTokenBucket.consumeToken cap amt interval now req none).2.1 = true ∧
    MemoryFixedWindow.getRemaining limit interval none now = limit ∧
    RedisFixedWindow.getScript limit 0 = limit ∧
    MemorySlidingWindow.getRemaining limit interval none now = (none, limit) ∧
    MemorySlidingLog.getRemaining limit interval none now = limit ∧
    (RedisSlidingLog.getScript limit interval now []).2 = limit ∧
    MemoryLeakyBucket.getState cap [] now =
      ([], { size := 0, remaining := cap }) ∧
    MemoryLeakyBucketV2.getState cap none = { size := 0, remaining := cap } ∧
    RedisLeakyBucket.getStateScript cap [] = (0, cap) := by
  have hfloor : qfloor ((now - now) / interval) = 0 := by
    simp [qfloor]
  have hnorefill : ¬ (now - now ≥ interval) := by
    simp only [sub_self]
    exact not_le.mpr hi
  refine ⟨rfl, ?_, ?_, ?_, ?_, rfl, rfl, ?_, ?_, rfl, ?_⟩
  · simp only [MemoryTokenBucket.consume, MemoryTokenBucket.getOrCreateBucket,
      MemoryTokenBucket.refillBucket, Option.getD]
    rw [if_neg (by exact not_lt.mpr hr0)]
    simp only [hfloor]
    norm_num
    rw [if_neg (by exact not_lt.mpr hr)]
    rfl
  · simp only [RedisTokenBucket.consumeToken, RedisTokenBucket.refillCalc]
    rw [if_neg hnorefill]
    simp only []
    rw [if_pos (by exact hr)]
  · simp [MemoryFixedWindow.getRemaining]
  · simp only [RedisFixedWindow.getScript, Nat.cast_zero, sub_zero]
    exact max_eq_right hl
  · simp only [RedisSlidingLog.getScript, List.filter_nil, List.length_nil,
      Nat.cast_zero, sub_zero]
    exact max_eq_right hl
  · simp only [MemoryLeakyBucket.getState, MemoryLeakyBucket.cleanupExpired,
      List.filter_nil, List.length_nil, Nat.cast_zero, sub_zero]
    rw [max_eq_right hc]
  · simp only [RedisLeakyBucket.getStateScript, List.length_nil,
      Nat.cast_zero, sub_zero]
    rw [max_eq_right hc]

/-- Witness for C10 at limit 10, capacity 10, refill amount 2, interval 1 s,
now 0, requested 10. -/
theorem C10_unseen_key_full_budget_witness :
    MemoryFixedWindow.getRemaining 10 1 none 0 = 10 ∧
    (RedisTokenBucket.consumeToken 10 2 1 0 10 none).2.1 = true := by
  have h := C10_unseen_key_full_budget 10 10 2 1 0 10 (by norm_num)
    (by norm_num) (by norm_num) (by norm_num) (by norm_num)
  exact ⟨h.2.2.2.1, h.2.2.1⟩

/-- In ℚ, a natural count exceeds another natural bound exactly when its
successor is at most the bound. -/
lemma natCast_succ_le_iff (c l : ℕ) : ((c : ℚ) + 1 ≤ (l : ℚ)) ↔ c < l := by
  constructor
  · intro h
    have : ((c + 1 : ℕ) : ℚ) ≤ (l : ℕ) := by push_cast; linarith
    exact_mod_cast this
  · intro h
    have : ((c + 1 : ℕ) : ℚ) ≤ ((l : ℕ) : ℚ) := by exact_mod_cast h
    push_cast at this; linarith

/-- Saturated fixed-window remaining clamps to 0. -/
lemma max_zero_of_le (l c : ℕ) (h : l ≤ c) :
    max 0 ((l : ℚ) - ((c : ℚ) + 1)) = 0 := by
  have : ((l : ℚ) ≤ (c : ℚ)) := by exact_mod_cast h
  apply max_eq_left
  linarith

/-- The Redis fixed-window script always increments, succeeds exactly when
the post-increment count is at most the limit, and clamps remaining at 0. -/
lemma redisFixedWindow_consume_eq (limit : ℚ) (count : ℕ) :
    RedisFixedWindow.consumeScript limit count =
      (count + 1,
       if ((count : ℚ) + 1) ≤ limit then
         (true, max 0 (limit - ((count : ℚ) + 1)))
       else
         (false, max 0 (limit - ((count : ℚ) + 1)))) := by
  simp only [RedisFixedWindow.consumeScript]
  push_cast
  rcases le_or_lt ((count : ℚ) + 1) limit with h | h
  · rw [if_neg (not_lt.mpr h), if_pos h]
  · rw [if_pos h, if_neg (not_le.mpr h)]

/-- The in-memory fixed window treats a stale or absent window as count 0,
succeeds exactly when the post-increment count is at most the limit
(persisting the incremented window), and rejects without writing. -/
lemma memoryFixedWindow_consume_eq (l : ℕ) (interval : ℚ)
    (st : Option MemoryFixedWindow.WindowData) (now : ℚ) :
    MemoryFixedWindow.consume (l : ℚ) interval st now =
      (let ws := MemoryFixedWindow.getWindowStart interval now
       let c := MemoryFixedWindow.effectiveCount st ws
       if ((c : ℚ) + 1) ≤ (l : ℚ) then
         (some { count := c + 1, windowStart := ws },
          { success := true, remaining := max 0 ((l : ℚ) - ((c : ℚ) + 1)) })
       else
         (st, { success := false,
                remaining := max 0 ((l : ℚ) - ((c : ℚ) + 1)) })) := by
  simp only [MemoryFixedWindow.consume, MemoryFixedWindow.effectiveCount]
  set ws := MemoryFixedWindow.getWindowStart interval now with hws
  have main : ∀ (c : ℕ) (st0 : Option MemoryFixedWindow.WindowData),
      (if ((c : ℚ)) ≥ (l : ℚ) then
         (st0, ({ success := false, remaining := 0 } : CountingResult))
       else (some { count := c + 1, windowStart := ws },
             { success := true, remaining := (l : ℚ) - ((c : ℚ) + 1) })) =
      (if ((c : ℚ) + 1) ≤ (l : ℚ) then
         (some { count := c + 1, windowStart := ws },
          { success := true, remaining := max 0 ((l : ℚ) - ((c : ℚ) + 1)) })
       else
         (st0, { success := false,
                 remaining := max 0 ((l : ℚ) - ((c : ℚ) + 1)) })) := by
    intro c st0
    rcases lt_or_ge c l with h | h
    · have h1 : ((c : ℚ) + 1) ≤ (l : ℚ) := (natCast_succ_le_iff c l).mpr h
      rw [if_neg, if_pos h1, max_eq_right (by linarith)]
      have : (c : ℚ) < (l : ℚ) := by exact_mod_cast h
      exact not_le.mpr this
    · rw [if_pos, if_neg]
      · rw [max_zero_of_le l c h]
      · intro hcon
        exact absurd ((natCast_succ_le_iff c l).mp hcon) (not_lt.mpr h)
      · exact_mod_cast h
  cases st with
  | none => exact main 0 none
  | some w =>
      dsimp only
      by_cases hw : w.windowStart = ws
      · rw [if_pos hw, if_pos hw]
        have := main w.count (some w)
        rw [show (some w) = some { count := w.count, windowStart := ws } by
          rw [← hw]] at this ⊢
        exact this
      · rw [if_neg hw, if_neg hw]
        exact main 0 (some w)

/-- Ten consumes at t = 0 under limit 10, interval 60 s all succeed with
remaining counting down from 9 to 0. -/
lemma fwRun_example :
    fwRun 10 60 none (List.replicate 10 0) =
      (some { count := 10, windowStart := 0 },
       [{ success := true, remaining := 9 }, { success := true, remaining := 8 },
        { success := true, remaining := 7 }, { success := true, remaining := 6 },
        { success := true, remaining := 5 }, { success := true, remaining := 4 },
        { success := true, remaining := 3 }, { success := true, remaining := 2 },
        { success := true, remaining := 1 },
        { success := true, remaining := 0 }]) := by
  norm_num [fwRun, MemoryFixedWindow.consume, MemoryFixedWindow.getWindowStart,
    qfloor, List.replicate]

/-- An 11th consume at t = 0 in the saturated window fails with remaining 0
and writes nothing. -/
lemma fw_eleventh_example :
    MemoryFixedWindow.consume 10 60 (some { count := 10, windowStart := 0 }) 0 =
      (some { count := 10, windowStart := 0 },
       { success := false, remaining := 0 }) := by
  norm_num [MemoryFixedWindow.consume, MemoryFixedWindow.getWindowStart, qfloor]

/-- A consume at t = 60 lands in a fresh window and succeeds with
remaining 9. -/
lemma fw_next_window_example :
    MemoryFixedWindow.consume 10 60 (some { count := 10, windowStart := 0 }) 60 =
      (some { count := 1, windowStart := 60 },
       { success := true, remaining := 9 }) := by
  norm_num [MemoryFixedWindow.consume, MemoryFixedWindow.getWindowStart, qfloor]

/-- C7: Fixed-window consume computes `windowStart =
floor(now/interval)*interval`; a stored state from a different window is
treated as count 0 and overwritten; the count is incremented and the call
succeeds exactly when the post-increment count is at most the limit, with
remaining = max 0 (limit − count). With limit 10 and interval 60 s, ten
consumes at t = 0 succeed with remaining 9 down to 0, the eleventh at t = 0
fails with remaining 0, and a consume at t = 60 succeeds with remaining 9. -/
theorem C7_fixed_window_spec :
    (∀ (limit : ℚ) (count : ℕ),
        RedisFixedWindow.consumeScript limit count =
          (count + 1,
           if ((count : ℚ) + 1) ≤ limit then
             (true, max 0 (limit - ((count : ℚ) + 1)))
           else
             (false, max 0 (limit - ((count : ℚ) + 1))))) ∧
    (∀ (l : ℕ) (interval : ℚ) (st : Option MemoryFixedWindow.WindowData)
        (now : ℚ),
        MemoryFixedWindow.consume (l : ℚ) interval st now =
          (let ws := MemoryFixedWindow.getWindowStart interval now
           let c := MemoryFixedWindow.effectiveCount st ws
           if ((c : ℚ) + 1) ≤ (l : ℚ) then
             (some { count := c + 1, windowStart := ws },
              { success := true, remaining := max 0 ((l : ℚ) - ((c : ℚ) + 1)) })
           else
             (st, { success := false,
                    remaining := max 0 ((l : ℚ) - ((c : ℚ) + 1)) }))) ∧
    fwRun 10 60 none (List.replicate 10 0) =
      (some { count := 10, windowStart := 0 },
       [{ success := true, remaining := 9 }, { success := true, remaining := 8 },
        { success := true, remaining := 7 }, { success := true, remaining := 6 },
        { success := true, remaining := 5 }, { success := true, remaining := 4 },
        { success := true, remaining := 3 }, { success := true, remaining := 2 },
        { success := true, remaining := 1 },
        { success := true, remaining := 0 }]) ∧
    MemoryFixedWindow.consume 10 60 (some { count := 10, windowStart := 0 }) 0 =
      (some { count := 10, windowStart := 0 },
       { success := false, remaining := 0 }) ∧
    MemoryFixedWindow.consume 10 60 (some { count := 10, windowStart := 0 }) 60 =
      (some { count := 1, windowStart := 60 },
       { success := true, remaining := 9 }) :=
  ⟨redisFixedWindow_consume_eq, memoryFixedWindow_consume_eq, fwRun_example,
   fw_eleventh_example, fw_next_window_example⟩

/-- The code's weighted-rate computation coincides with the specification's
formula `current + floor(previous * max 0 ((currentWindowStart + interval −
now) / interval))`. -/
lemma calculateWeightedRate_eq_spec (interval : ℚ)
    (w : MemorySlidingWindow.WindowData) (now : ℚ) :
    MemorySlidingWindow.calculateWeightedRate interval w now =
      slidingWeightedSpec interval w now := rfl

/-- Sliding-window consume characterized by the specification's formula:
after the rollover, success holds exactly when the weighted rate is below
the limit, the current counter increments on success, and remaining is
`max 0 (limit − (weighted + 1))` on success, `max 0 (limit − weighted)` on
rejection. -/
lemma memorySlidingWindow_consume_eq (limit interval : ℚ)
    (st : Option MemorySlidingWindow.WindowData) (now : ℚ) :
    MemorySlidingWindow.consume limit interval st now =
      (let ws := qfloor (now / interval) * interval
       let w := MemorySlidingWindow.transition interval
         (st.getD { current := 0, previous := 0, currentWindowStart := ws }) now
       let weighted := slidingWeightedSpec interval w now
       if weighted < limit then
         (some { w with current := w.current + 1 },
          { success := true, remaining := max 0 (limit - (weighted + 1)) })
       else
         (some w,
          { success := false, remaining := max 0 (limit - weighted) })) := by
  simp only [MemorySlidingWindow.consume, calculateWeightedRate_eq_spec]
  rcases lt_or_ge
    (slidingWeightedSpec interval
      (MemorySlidingWindow.transition interval
        (st.getD { current := 0, previous := 0,
                   currentWindowStart := qfloor (now / interval) * interval })
        now) now) limit with h | h
  · rw [if_neg (not_le.mpr h), if_pos h]
  · rw [if_pos h, if_neg (not_lt.mpr h)]

/-- Sliding-window `getRemaining` on a present key persists the rollover it
computes and reports the same weighted formula. -/
lemma memorySlidingWindow_getRemaining_eq (limit interval : ℚ)
    (w0 : MemorySlidingWindow.WindowData) (now : ℚ) :
    MemorySlidingWindow.getRemaining limit interval (some w0) now =
      (some (MemorySlidingWindow.transition interval w0 now),
       max 0 (limit -
         slidingWeightedSpec interval
           (MemorySlidingWindow.transition interval w0 now) now)) := rfl

/-- Five sliding-window consumes at t = 50 under limit 10, interval 60 s. -/
lemma swRun_example :
    swRun 10 60 none (List.replicate 5 50) =
      (some { current := 5, previous := 0, currentWindowStart := 0 },
       [{ success := true, remaining := 9 }, { success := true, remaining := 8 },
        { success := true, remaining := 7 }, { success := true, remaining := 6 },
        { success := true, remaining := 5 }]) := by
  norm_num [swRun, MemorySlidingWindow.consume, MemorySlidingWindow.transition,
    MemorySlidingWindow.calculateWeightedRate, qfloor, List.replicate]

/-- After those five consumes, `getRemaining` at t = 80 rolls the window
over and reports `10 − floor(5 * 40/60) = 7`. -/
lemma sw_getRemaining_example :
    MemorySlidingWindow.getRemaining 10 60
      (some { current := 5, previous := 0, currentWindowStart := 0 }) 80 =
      (some { current := 0, previous := 5, currentWindowStart := 60 }, 7) := by
  norm_num [MemorySlidingWindow.getRemaining, MemorySlidingWindow.transition,
    MemorySlidingWindow.calculateWeightedRate, qfloor]

/-- C8: Sliding-window consume computes `weight = max 0 ((currentWindowStart
+ interval − now)/interval)` and `weighted = current + floor(previous *
weight)`; it succeeds exactly when `weighted < limit`, increments the
current counter on success, and returns `remaining = max 0 (limit −
(weighted + 1))`; `getRemaining` uses the same formula. With limit 10 and
interval 60 s, after five consumes at t = 50, `getRemaining` at t = 80
returns 7. -/
theorem C8_sliding_window_spec :
    (∀ (interval : ℚ) (w : MemorySlidingWindow.WindowData) (now : ℚ),
        MemorySlidingWindow.calculateWeightedRate interval w now =
          slidingWeightedSpec interval w now) ∧
    (∀ (limit interval : ℚ) (st : Option MemorySlidingWindow.WindowData)
        (now : ℚ),
        MemorySlidingWindow.consume limit interval st now =
          (let ws := qfloor (now / interval) * interval
           let w := MemorySlidingWindow.transition interval
             (st.getD { current := 0, previous := 0,
                        currentWindowStart := ws }) now
           let weighted := slidingWeightedSpec interval w now
           if weighted < limit then
             (some { w with current := w.current + 1 },
              { success := true, remaining := max 0 (limit - (weighted + 1)) })
           else
             (some w,
              { success := false, remaining := max 0 (limit - weighted) }))) ∧
    (∀ (limit interval : ℚ) (w0 : MemorySlidingWindow.WindowData) (now : ℚ),
        MemorySlidingWindow.getRemaining limit interval (some w0) now =
          (some (MemorySlidingWindow.transition interval w0 now),
           max 0 (limit -
             slidingWeightedSpec interval
               (MemorySlidingWindow.transition interval w0 now) now))) ∧
    swRun 10 60 none (List.replicate 5 50) =
      (some { current := 5, previous := 0, currentWindowStart := 0 },
       [{ success := true, remaining := 9 }, { success := true, remaining := 8 },
        { success := true, remaining := 7 }, { success := true, remaining := 6 },
        { success := true, remaining := 5 }]) ∧
    MemorySlidingWindow.getRemaining 10 60
      (some { current := 5, previous := 0, currentWindowStart := 0 }) 80 =
      (some { current := 0, previous := 5, currentWindowStart := 60 }, 7) :=
  ⟨calculateWeightedRate_eq_spec, memorySlidingWindow_consume_eq,
   memorySlidingWindow_getRemaining_eq, swRun_example, sw_getRemaining_example⟩

/-- One whole refill cycle has elapsed exactly when the elapsed time reaches
the refill interval (for a positive interval). -/
lemma one_le_qfloor_div_iff (e i : ℚ) (hi : 0 < i) :
    1 ≤ qfloor (e / i) ↔ i ≤ e := by
  unfold qfloor
  rw [show ((1 : ℚ) = ((1 : ℤ) : ℚ)) by norm_num, Int.cast_le, Int.le_floor]
  push_cast
  rw [le_div_iff₀ hi, one_mul]

/-- C1 fails on the in-memory backend: with refillAmount 2 and
refillInterval 2 s, a refill of the bucket (tokens 0, lastRefill 0) at
now = 3 credits one cycle but sets lastRefill to 3, not to
0 + 1·2 = 2 as the claim requires, discarding the 1 s of fractional
progress. -/
theorem C1_counterexample :
    MemoryTokenBucket.refillBucket ⟨10, 2, 2⟩ ⟨0, 0⟩ 3 =
      { tokens := 2, lastRefill := 3 } ∧
    qfloor ((3 - 0) / 2) = 1 ∧
    (MemoryTokenBucket.refillBucket ⟨10, 2, 2⟩ ⟨0, 0⟩ 3).lastRefill ≠
      0 + qfloor ((3 - 0) / 2) * 2 := by
  refine ⟨?_, ?_, ?_⟩
  · norm_num [MemoryTokenBucket.refillBucket, qfloor]
  · norm_num [qfloor]
  · norm_num [MemoryTokenBucket.refillBucket, qfloor]

/-- C1 (amended): In the Redis backend every access applies refill as
`cycles = floor((now − lastRefill)/refillInterval)`; when `cycles ≥ 1` the
tokens become `min(capacity, tokens + cycles·refillAmount)` and
`lastRefill` advances by exactly `cycles·refillInterval`, never snapped to
`now`, so fractional progress is preserved: with capacity 10, refillAmount
2, refillInterval 1 s, after consume(10) empties the bucket,
`getRemainingTokens` 1.1 s later reports 2 tokens and anchors the refill at
t = 1. The in-memory backend credits the same amount but snaps
`lastRefill` to `now` whenever a refill applies (and a successful consume
also resets it to `now`), discarding fractional progress. -/
theorem C1_token_refill_anchor (cap amt int now tokens last : ℚ)
    (hi : 0 < int) (cfg : MemoryTokenBucket.Config)
    (b : MemoryTokenBucket.BucketState) (mnow : ℚ)
    (hcycles : 0 < qfloor ((mnow - b.lastRefill) / cfg.refillInterval)) :
    RedisTokenBucket.refillCalc cap amt int now (some ⟨tokens, last⟩) =
      (let cycles := qfloor ((now - last) / int)
       if 1 ≤ cycles then
         (min cap (tokens + cycles * amt), last + cycles * int, true)
       else
         (tokens, last, false)) ∧
    (MemoryTokenBucket.refillBucket cfg b mnow).lastRefill = mnow ∧
    RedisTokenBucket.consumeToken 10 2 1 0 10 none =
      (some ⟨0, 0⟩, (true, 0, 1)) ∧
    RedisTokenBucket.getRemainingTokensScript 10 2 1 (11/10) (some ⟨0, 0⟩) =
      (some ⟨2, 1⟩, (2, 2)) := by
  refine ⟨?_, ?_, ?_, ?_⟩
  · simp only [RedisTokenBucket.refillCalc]
    rcases le_or_lt int (now - last) with h | h
    · rw [if_pos h, if_pos ((one_le_qfloor_div_iff (now - last) int hi).mpr h)]
    · rw [if_neg (not_le.mpr h),
        if_neg (by
          intro hcon
          exact absurd ((one_le_qfloor_div_iff (now - last) int hi).mp hcon)
            (not_le.mpr h))]
  · simp only [MemoryTokenBucket.refillBucket]
    rw [if_pos hcycles]
  · simp only [RedisTokenBucket.consumeToken, RedisTokenBucket.refillCalc]
    norm_num
  · simp only [RedisTokenBucket.getRemainingTokensScript,
      RedisTokenBucket.refillCalc, qfloor]
    norm_num

/-- Witness for C1 at capacity 10, refillAmount 2, interval 1 s: the Redis
refill at now = 1.5 from anchor 0 credits one cycle and anchors at 1; the
memory refill at now = 2 snaps the anchor to 2. -/
theorem C1_token_refill_anchor_witness :
    RedisTokenBucket.refillCalc 10 2 1 (3/2) (some ⟨0, 0⟩) = (2, 1, true) ∧
    (MemoryTokenBucket.refillBucket ⟨10, 2, 1⟩ ⟨0, 0⟩ 2).lastRefill = 2 := by
  have h := C1_token_refill_anchor 10 2 1 (3/2) 0 0 (by norm_num)
    ⟨10, 2, 1⟩ ⟨0, 0⟩ 2 (by norm_num [qfloor])
  constructor
  · rw [h.1]
    norm_num [qfloor]
  · exact h.2.1

/-- C2 fails on the Redis token bucket: `getRemainingTokens` at t = 1.5 on a
bucket (tokens 0, anchor 0, interval 1 s) commits a write — the stored
state changes to (tokens 2, anchor 1) — yet it is a read-only operation and
not the sliding-window `getRemaining`. -/
theorem C2_counterexample :
    (RedisTokenBucket.getRemainingTokensScript 10 2 1 (3/2)
      (some ⟨0, 0⟩)).1 = some ⟨2, 1⟩ ∧
    some (⟨2, 1⟩ : RedisTokenBucket.TBState) ≠ some ⟨0, 0⟩ := by
  constructor
  · simp only [RedisTokenBucket.getRemainingTokensScript,
      RedisTokenBucket.refillCalc, qfloor]
    norm_num
  · simp only [ne_eq, Option.some.injEq, RedisTokenBucket.TBState.mk.injEq]
    norm_num

/-- C2 (amended): Read-only operations perform the same derivation as the
mutating ones, but several persist the canonical state they compute: besides
the sliding-window `getRemaining` persisting its rollover, the token-bucket
`getRemainingTokens` persists the refill it computes (both backends; the
memory backend also creates the bucket), the Redis sliding-log
`getRemaining` persists its pruning, and the memory leaky-bucket `getState`
persists its expiry cleanup. Fixed-window `getRemaining`, the memory
sliding-log `getRemaining`, the Redis leaky-bucket `getState`, and
throttling `getStatus` commit no write; in particular, throttling
`getStatus` in both backends leaves the state untouched and returns exactly
the result `throttle` would report, even on the would-succeed branch. -/
theorem C2_read_paths :
    (∀ (m now : ℚ) (st : Option ℚ),
        MemoryThrottling.getStatus m st now =
          (st, (MemoryThrottling.throttle m st now).2)) ∧
    (∀ (m now : ℚ) (st : Option ℚ),
        RedisThrottling.getStatusScript m now st =
          (st, (RedisThrottling.throttleScript m now st).2)) ∧
    (∀ (limit interval : ℚ) (w0 : MemorySlidingWindow.WindowData) (now : ℚ),
        (MemorySlidingWindow.getRemaining limit interval (some w0) now).1 =
          some (MemorySlidingWindow.transition interval w0 now)) ∧
    (∀ (cap amt int now : ℚ) (st : Option RedisTokenBucket.TBState),
        (RedisTokenBucket.getRemainingTokensScript cap amt int now st).1 =
          (let r := RedisTokenBucket.refillCalc cap amt int now st
           if r.2.2 then some ⟨r.1, r.2.1⟩ else st)) ∧
    (∀ (cfg : MemoryTokenBucket.Config)
        (st : Option MemoryTokenBucket.BucketState) (now : ℚ),
        (MemoryTokenBucket.getRemainingTokens cfg st now).1 =
          MemoryTokenBucket.refillBucket cfg
            (MemoryTokenBucket.getOrCreateBucket cfg st now) now) ∧
    (∀ (limit interval now : ℚ) (entries : List (ℚ × String)),
        (RedisSlidingLog.getScript limit interval now entries).1 =
          entries.filter (fun e => now - interval < e.1)) ∧
    (∀ (cap : ℚ) (items : List ℚ) (now : ℚ),
        (MemoryLeakyBucket.getState cap items now).1 =
          MemoryLeakyBucket.cleanupExpired items now) := by
  refine ⟨?_, ?_, fun _ _ _ _ => rfl, ?_,
    fun _ _ _ => rfl, fun _ _ _ _ => rfl, fun _ _ _ => rfl⟩
  · intro m now st
    simp only [MemoryThrottling.getStatus, MemoryThrottling.throttle]
    split_ifs <;> rfl
  · intro m now st
    simp only [RedisThrottling.getStatusScript, RedisThrottling.throttleScript]
    split_ifs <;> rfl
  · intro cap amt int now st
    simp only [RedisTokenBucket.getRemainingTokensScript]
    split_ifs <;> rfl

/-- C3 is violated by the Redis sliding-window read path: with limit 1,
interval 60 s, previous count 0 and current count 1 at t = 0, the weighted
total reaches the limit and the shared script body answers with the
two-element table `{0, 0}` (the consume reply shape) instead of the bare
number its TypeScript declaration promises, so the wrapper's `Math.floor`
of an array produces no number at all (NaN, modelled `none`) rather than a
remaining in [0, limit]. The consume script handles the same state
correctly, rejecting with remaining 0. -/
theorem C3_remaining_invariant_bug :
    RedisSlidingWindow.getScript 1 60 0 0 1 = Sum.inr (0, 0) ∧
    RedisSlidingWindow.getRemaining 1 60 0 0 1 = none ∧
    RedisSlidingWindow.consumeScript 1 60 0 0 1 = ((0, 1), (false, 0)) := by
  have h : RedisSlidingWindow.scriptCore 1 60 0 0 1 = (1, 0) := by
    norm_num [RedisSlidingWindow.scriptCore, qmod, qfloor]
  have hg : RedisSlidingWindow.getScript 1 60 0 0 1 = Sum.inr (0, 0) := by
    simp only [RedisSlidingWindow.getScript, h]
    norm_num
  refine ⟨hg, ?_, ?_⟩
  · unfold RedisSlidingWindow.getRemaining
    rw [hg]
  · simp only [RedisSlidingWindow.consumeScript, h]
    norm_num

/-- C4: the in-memory token bucket rejects a negative consume amount with an
invalid-argument error before touching state, but the Redis backend runs no
validation at all — `consume(key, −5)` on a full bucket of capacity 10
reports success and persists 15 tokens, silently exceeding the capacity
instead of failing fast. -/
theorem C4_negative_consume_bug :
    MemoryTokenBucket.consume ⟨10, 2, 1⟩ (some ⟨10, 0⟩) 0 (-5) =
      .error "Tokens to consume must be greater than or equal to 0" ∧
    RedisTokenBucket.consumeToken 10 2 1 0 (-5) (some ⟨10, 0⟩) =
      (some ⟨15, 0⟩, (true, 15, 1)) ∧
    (15 : ℚ) > 10 := by
  refine ⟨?_, ?_, by norm_num⟩
  · simp only [MemoryTokenBucket.consume]
    norm_num
  · simp only [RedisTokenBucket.consumeToken, RedisTokenBucket.refillCalc]
    norm_num

/-- C5 fails on two counts: the in-memory backend raises an error for
`addTokens`/`removeTokens` with amount ≤ 0 (not a silent no-op), and the
Redis backend, while treating amount ≤ 0 as a no-op, applies no refill
before clamping — with capacity 10, refillAmount 2, refillInterval 1 s,
adding 1 token at t = 5 to a bucket emptied at t = 0 stores 1 token, while
refill-then-clamp as claimed would store 10. -/
theorem C5_counterexample :
    MemoryTokenBucket.addTokens ⟨10, 2, 1⟩ (some ⟨5, 0⟩) 0 0 =
      .error "Amount to add must be greater than 0" ∧
    MemoryTokenBucket.removeTokens ⟨10, 2, 1⟩ (some ⟨5, 0⟩) 0 (-1) =
      .error "Amount to remove must be greater than 0" ∧
    RedisTokenBucket.addTokens 1 10 5 (some ⟨0, 0⟩) = some ⟨1, 0⟩ ∧
    min (10:ℚ) (min 10 (0 + qfloor ((5 - 0) / 1) * 2) + 1) = 10 ∧
    (1 : ℚ) ≠ 10 := by
  refine ⟨?_, ?_, ?_, ?_, by norm_num⟩
  · simp [MemoryTokenBucket.addTokens]
  · norm_num [MemoryTokenBucket.removeTokens]
  · norm_num [RedisTokenBucket.addTokens, RedisTokenBucket.addTokensScript]
  · norm_num [qfloor]

/-- C5 (amended): the two backends differ. The Redis
`addTokens`/`removeTokens` treat amount ≤ 0 as a silent no-op (no error, no
state change) and with a positive amount clamp `tokens + amount`
(respectively `tokens − amount`) into [0, capacity] without applying any
pending refill — their scripts read only the stored token count and leave
the refill anchor untouched. The in-memory `addTokens`/`removeTokens` raise
an invalid-argument error on amount ≤ 0, and with a positive amount first
apply the pending refill and then clamp into [0, capacity]. -/
theorem C5_add_remove_tokens :
    (∀ (amount cap now : ℚ) (st : Option RedisTokenBucket.TBState),
        amount ≤ 0 → RedisTokenBucket.addTokens amount cap now st = st) ∧
    (∀ (amount cap now : ℚ) (st : Option RedisTokenBucket.TBState),
        amount ≤ 0 → RedisTokenBucket.removeTokens amount cap now st = st) ∧
    (∀ (amount cap now tokens last : ℚ),
        RedisTokenBucket.addTokensScript amount cap now (some ⟨tokens, last⟩) =
          some ⟨min cap (tokens + amount), last⟩) ∧
    (∀ (amount cap now tokens last : ℚ),
        RedisTokenBucket.removeTokensScript amount cap now
            (some ⟨tokens, last⟩) =
          some ⟨max 0 (tokens - amount), last⟩) ∧
    (∀ (cfg : MemoryTokenBucket.Config)
        (st : Option MemoryTokenBucket.BucketState) (now amount : ℚ),
        amount ≤ 0 →
          MemoryTokenBucket.addTokens cfg st now amount =
            .error "Amount to add must be greater than 0") ∧
    (∀ (cfg : MemoryTokenBucket.Config)
        (st : Option MemoryTokenBucket.BucketState) (now amount : ℚ),
        amount ≤ 0 →
          MemoryTokenBucket.removeTokens cfg st now amount =
            .error "Amount to remove must be greater than 0") ∧
    (∀ (cfg : MemoryTokenBucket.Config)
        (st : Option MemoryTokenBucket.BucketState) (now amount : ℚ),
        0 < amount →
          MemoryTokenBucket.addTokens cfg st now amount =
            .ok ⟨min cfg.capacity
                   ((MemoryTokenBucket.refillBucket cfg
                     (MemoryTokenBucket.getOrCreateBucket cfg st now)
                     now).tokens + amount),
                 (MemoryTokenBucket.refillBucket cfg
                   (MemoryTokenBucket.getOrCreateBucket cfg st now)
                   now).lastRefill⟩) ∧
    (∀ (cfg : MemoryTokenBucket.Config)
        (st : Option MemoryTokenBucket.BucketState) (now amount : ℚ),
        0 < amount →
          MemoryTokenBucket.removeTokens cfg st now amount =
            .ok ⟨max 0
                   ((MemoryTokenBucket.refillBucket cfg
                     (MemoryTokenBucket.getOrCreateBucket cfg st now)
                     now).tokens - amount),
                 (MemoryTokenBucket.refillBucket cfg
                   (MemoryTokenBucket.getOrCreateBucket cfg st now)
                   now).lastRefill⟩) := by
  refine ⟨?_, ?_, fun _ _ _ _ _ => rfl, fun _ _ _ _ _ => rfl, ?_, ?_, ?_, ?_⟩
  · intro amount cap now st h
    simp only [RedisTokenBucket.addTokens, if_pos h]
  · intro amount cap now st h
    simp only [RedisTokenBucket.removeTokens, if_pos h]
  · intro cfg st now amount h
    simp only [MemoryTokenBucket.addTokens, if_pos h]
  · intro cfg st now amount h
    simp only [MemoryTokenBucket.removeTokens, if_pos h]
  · intro cfg st now amount h
    simp only [MemoryTokenBucket.addTokens, if_neg (not_le.mpr h)]
  · intro cfg st now amount h
    simp only [MemoryTokenBucket.removeTokens, if_neg (not_le.mpr h)]

/-- Witness for C5: a Redis addTokens of amount 0 leaves the state alone; a
memory addTokens of 2 at t = 0 on a bucket holding 5 of 10 tokens (no
pending cycle) stores 7. -/
theorem C5_add_remove_tokens_witness :
    RedisTokenBucket.addTokens 0 10 0 (some ⟨5, 0⟩) = some ⟨5, 0⟩ ∧
    MemoryTokenBucket.addTokens ⟨10, 2, 1⟩ (some ⟨5, 0⟩) 0 2 =
      .ok ⟨7, 0⟩ := by
  constructor
  · exact C5_add_remove_tokens.1 0 10 0 (some ⟨5, 0⟩) (by norm_num)
  · have h := C5_add_remove_tokens.2.2.2.2.2.2.1 ⟨10, 2, 1⟩ (some ⟨5, 0⟩) 0 2
      (by norm_num)
    rw [h]
    norm_num [MemoryTokenBucket.refillBucket,
      MemoryTokenBucket.getOrCreateBucket, qfloor]

/-- C6 fails on two of the three leaky-bucket implementations: the
alternative in-memory bucket and the Redis script keep entries regardless
of age. A full bucket of capacity 1 holding one stale entry still rejects a
new request (no drop ever happens on access — the functions do not even
take the clock as input), whereas the claim mandates dropping the expired
entry and admitting; the expiry-based in-memory bucket (interval 5 s, entry
expiring at t = 5, consume at t = 100) does drop it and admits. -/
theorem C6_counterexample :
    MemoryLeakyBucketV2.consume 1 ["a"] "b" =
      (["a"], { success := false, remaining := 0 }) ∧
    RedisLeakyBucket.consumeScript 1 "b" ["a"] = (["a"], (false, 0)) ∧
    MemoryLeakyBucket.consume 1 5 [5] 100 =
      ([105], { success := true, remaining := 0 }) := by
  refine ⟨?_, ?_, ?_⟩
  · norm_num [MemoryLeakyBucketV2.consume]
  · norm_num [RedisLeakyBucket.consumeScript]
  · norm_num [MemoryLeakyBucket.consume, MemoryLeakyBucket.cleanupExpired,
      List.filter]

/-- C6 (amended): only the expiry-based in-memory leaky bucket
(src/memory/MemoryLeakyBucket.ts) behaves as claimed: each accepted entry
carries expiry = now + interval, every access (consume and getState) first
drops exactly the entries with expiry ≤ now, and consume then admits iff
the post-drop size is strictly below capacity — appending the new entry and
returning remaining = capacity − new size — else rejects with remaining 0.
The Redis backend keeps no per-entry expiry: its scripts never remove
entries (the whole queue expires `interval` after the last accepted push
via a key-level TTL), and the alternative in-memory leaky bucket stores no
expiry and drops nothing on access. -/
theorem C6_leaky_bucket :
    (∀ (items : List ℚ) (now : ℚ),
        MemoryLeakyBucket.cleanupExpired items now =
          items.filter (fun e => now < e)) ∧
    (∀ (cap interval : ℚ) (items : List ℚ) (now : ℚ),
        MemoryLeakyBucket.consume cap interval items now =
          (let cleaned := MemoryLeakyBucket.cleanupExpired items now
           if ((cleaned.length : ℚ)) < cap then
             (cleaned ++ [now + interval],
              { success := true,
                remaining := cap - ((cleaned.length : ℚ) + 1) })
           else
             (cleaned, { success := false, remaining := 0 }))) ∧
    (∀ (cap : ℚ) (items : List ℚ) (now : ℚ),
        MemoryLeakyBucket.getState cap items now =
          (let cleaned := MemoryLeakyBucket.cleanupExpired items now
           (cleaned, { size := (cleaned.length : ℚ),
                       remaining := max 0 (cap - (cleaned.length : ℚ)) }))) ∧
    (∀ (cap : ℚ) (requests : List String) (requestId : String),
        (MemoryLeakyBucketV2.consume cap requests requestId).1 = requests ∨
        (MemoryLeakyBucketV2.consume cap requests requestId).1 =
          requests ++ [requestId]) ∧
    (∀ (cap : ℚ) (requestId : String) (items : List String),
        (RedisLeakyBucket.consumeScript cap requestId items).1 = items ∨
        (RedisLeakyBucket.consumeScript cap requestId items).1 =
          items ++ [requestId]) := by
  refine ⟨fun _ _ => rfl, ?_, fun _ _ _ => rfl, ?_, ?_⟩
  · intro cap interval items now
    simp only [MemoryLeakyBucket.consume]
    rcases lt_or_ge ((MemoryLeakyBucket.cleanupExpired items now).length : ℚ)
      cap with h | h
    · rw [if_neg (not_le.mpr h), if_pos h]
      simp only [List.length_append, List.length_cons, List.length_nil]
      push_cast
      ring_nf
    · rw [if_pos h, if_neg (not_lt.mpr h)]
  · intro cap requests requestId
    simp only [MemoryLeakyBucketV2.consume]
    split_ifs
    · left; rfl
    · right; rfl
  · intro cap requestId items
    simp only [RedisLeakyBucket.consumeScript]
    split_ifs
    · right; rfl
    · left; rfl
